import Mathlib

/-!
Shallow embedding of `src/nanobot/channels/http.py` (class `HTTPChannel`).

The Python module implements the request/response correlation layer of an
HTTP channel adapter: `send_message` mints a conversation identifier,
installs an `asyncio.Future` in the correlation dict `pending_responses`,
publishes an inbound message on the bus, and awaits the future with a
deadline; the background task `_listen_outbound` drains the outbound side
of the bus and completes matching futures.

Modelling conventions:
* Python dicts (`pending_responses`) are association lists with lookup
  semantics (`dictInsert` overwrites the key, `dictRemove` deletes it);
* `asyncio.Future` objects live in an id-indexed store (`futures`), so a
  waiter survives being popped from the dict or overwritten in it, exactly
  as the Python object survives while `send_message` still references it;
* `uuid.uuid4()` is modelled as a fresh-name supply (`next_msg_id` counter):
  what the claims need from it is that each call draws a value never drawn
  before, which the counter gives exactly;
* cooperative-async interleaving is explicit: the suspension-free blocks of
  the Python code become pure state transformers (`send_register`, the
  dispatcher loop body, the timeout handler), and runs are compositions of
  those blocks;
* exceptions are an `Except` result; `asyncio.wait_for`'s deadline is an
  explicit boolean/clock input.
-/

namespace Nanobot

/-- State of an `asyncio.Future`: a single-assignment cell. -/
inductive FState where
  | pending
  | done (v : String)
  | cancelled
deriving DecidableEq, Repr

/-- Python `Future.done()`: true once the future is completed or cancelled. -/
def FState.isDone : FState → Bool
  | .pending => false
  | .done _ => true
  | .cancelled => true

/-- Exceptions that the embedded code can raise or catch. -/
inductive AsyncError where
  | timeoutError
  | cancelledError
  | attributeError
deriving DecidableEq, Repr

/-- Model of `nanobot.bus.events.InboundMessage` (fields as constructed by
`HTTPChannel.send_message`).  The `id` field (a `uuid.uuid4()` string in the
source) is drawn from the fresh-name supply, hence a `Nat`. -/
structure InboundMessage where
  id : Nat
  channel : String
  thread_id : String
  sender_id : String
  sender_name : String
  text : String
  timestamp : String
  attachments : List String
  metadata : List (String × String)
deriving DecidableEq, Repr

/-- Modelled from the spec: `nanobot.bus.events.OutboundMessage` is not under
`src/`; the spec says it mirrors `InboundMessage` for the reverse direction
and must carry the same `thread_id`.  `_listen_outbound` reads only
`thread_id` and `text`. -/
structure OutboundMessage where
  thread_id : String
  text : String
deriving DecidableEq, Repr

/-- Association-list model of a Python dict (string keys): assignment
`d[k] = v` overwrites any previous binding of `k`. -/
def dictRemove (k : String) (d : List (String × Nat)) : List (String × Nat) :=
  d.filter fun p => p.1 != k

/-- Assignment `d[k] = v`: exactly one binding for `k` afterwards. -/
def dictInsert (k : String) (v : Nat) (d : List (String × Nat)) : List (String × Nat) :=
  (k, v) :: dictRemove k d

/-- Store update for the future heap. -/
def setF (i : Nat) (s : FState) (fs : List (Nat × FState)) : List (Nat × FState) :=
  (i, s) :: fs.filter fun p => p.1 != i

/-- Store read for the future heap (ids outside the store never arise in a
run; they read as a fresh pending cell). -/
def getF (fs : List (Nat × FState)) (i : Nat) : FState :=
  (fs.lookup i).getD FState.pending

/-- The mutable state of one `HTTPChannel` instance together with the bus
side it writes.  `pending_responses` maps a `thread_id` to the id of its
waiter future; `futures` is the store those ids point into. -/
structure ChannelState where
  pending_responses : List (String × Nat)
  futures : List (Nat × FState)
  next_future : Nat
  next_msg_id : Nat
  _running : Bool
  _task : Option Nat
  inbound_queue : List InboundMessage
deriving DecidableEq, Repr

/-- The class attribute `HTTPChannel.name = "http"`. -/
def channelName : String := "http"

/-- Constructor `HTTPChannel.__init__`: empty correlation dict, no dispatcher task.
(`BaseChannel.__init__` is not under `src/`; modelled from the spec's
lifecycle state machine, which starts adapters in `Stopped`.) -/
def initChannel : ChannelState :=
  { pending_responses := []
    futures := []
    next_future := 0
    next_msg_id := 0
    _running := false
    _task := none
    inbound_queue := [] }

/-- The fixed human-readable timeout notice returned by `send_message`. -/
def timeout_notice : String :=
  "⏰ Запрос занял слишком много времени. Попробуй упростить задачу."

/-- Method `HTTPChannel.start`: set the running flag and launch the dispatcher
task. -/
def start (st : ChannelState) : ChannelState :=
  { st with _running := true, _task := some st.next_future }

/-- One iteration body of `HTTPChannel._listen_outbound` after
`get_outbound_message` returned `msg`: if the dict has an entry for
`msg.thread_id`, pop it, and if the popped future is not yet done, complete
it with `msg.text`; otherwise discard the message. -/
def listen_outbound_body (st : ChannelState) (msg : OutboundMessage) : ChannelState :=
  match st.pending_responses.lookup msg.thread_id with
  | some fid =>
      let st1 := { st with pending_responses := dictRemove msg.thread_id st.pending_responses }
      if (getF st1.futures fid).isDone then st1
      else { st1 with futures := setF fid (FState.done msg.text) st1.futures }
  | none => st

/-- What one `await self.bus.get_outbound_message()` in the dispatcher loop
can yield: a dequeued message, a `CancelledError` (the task was cancelled),
or any other exception raised during the iteration. -/
inductive LoopEvent where
  | recv (msg : OutboundMessage)
  | cancelled
  | fault
deriving DecidableEq, Repr

/-- How a (finite prefix of a) run of the dispatcher loop ended. -/
inductive LoopExit where
  | cancelledBreak
  | notRunning
  | stillListening
deriving DecidableEq, Repr

/-- Method `HTTPChannel._listen_outbound`: `while self._running:` around a
`try/except` — a message is dispatched via `listen_outbound_body`, a
`CancelledError` breaks out of the loop, any other exception is logged and
the loop continues.  The argument lists the events the bus delivers, in
order; an exhausted list leaves the loop suspended at its await. -/
def listen_outbound (st : ChannelState) : List LoopEvent → ChannelState × LoopExit
  | [] => if st._running then (st, LoopExit.stillListening) else (st, LoopExit.notRunning)
  | e :: rest =>
      if st._running then
        match e with
        | LoopEvent.recv m => listen_outbound (listen_outbound_body st m) rest
        | LoopEvent.cancelled => (st, LoopExit.cancelledBreak)
        | LoopEvent.fault => listen_outbound st rest
      else (st, LoopExit.notRunning)

/-- Result of the registration phase of `send_message` (lines up to the bus
publish): the updated state, the minted `thread_id`, the id of the freshly
created waiter future, and the published inbound message. -/
structure SendReg where
  st : ChannelState
  thread_id : String
  fid : Nat
  msg : InboundMessage
deriving DecidableEq, Repr

/-- Registration phase of `HTTPChannel.send_message`: mint `message_id` and
`thread_id = f"http-{user_id}"`, create a fresh pending future, install it
in `pending_responses` (overwriting any prior entry for the key), build the
`InboundMessage` and enqueue it on the bus.  `now` stands for
`datetime.utcnow().isoformat()`. -/
def send_register (st : ChannelState) (text user_id now : String) : SendReg :=
  let message_id := st.next_msg_id
  let thread_id := "http-" ++ user_id
  let fid := st.next_future
  let inbound : InboundMessage :=
    { id := message_id
      channel := channelName
      thread_id := thread_id
      sender_id := user_id
      sender_name := user_id
      text := text
      timestamp := now
      attachments := []
      metadata := [("user_id", user_id)] }
  { st :=
      { st with
        pending_responses := dictInsert thread_id fid st.pending_responses
        futures := setF fid FState.pending st.futures
        next_future := st.next_future + 1
        next_msg_id := st.next_msg_id + 1
        inbound_queue := st.inbound_queue ++ [inbound] }
    thread_id := thread_id
    fid := fid
    msg := inbound }

/-- Model of `asyncio.wait_for(future, timeout)`: if the deadline elapsed first,
raise `TimeoutError`; otherwise the wait returned because the future was
completed, and its value is returned. -/
def wait_for (fs : FState) (timedOut : Bool) : Except AsyncError String :=
  match fs, timedOut with
  | FState.done v, false => Except.ok v
  | _, _ => Except.error AsyncError.timeoutError

/-- The wait phase of `HTTPChannel.send_message`: the `try/except` around
`asyncio.wait_for`.  On success return the delivered text; on
`TimeoutError`, `pending_responses.pop(thread_id, None)` and return the
fixed timeout notice; any other exception would propagate. -/
def send_await (st : ChannelState) (thread_id : String) (fs : FState) (timedOut : Bool) :
    ChannelState × Except AsyncError String :=
  match wait_for fs timedOut with
  | Except.ok v => (st, Except.ok v)
  | Except.error AsyncError.timeoutError =>
      ({ st with pending_responses := dictRemove thread_id st.pending_responses },
       Except.ok timeout_notice)
  | Except.error e => (st, Except.error e)

/-- A whole `send_message(text, user_id, timeout)` call: register, let the
dispatcher process every bus event that arrives no later than `timeout`
seconds after the call (`arrivals` pairs each event with its arrival time),
then resume: if the waiter was completed before the deadline the call
returns its value, otherwise the deadline elapsed and the timeout handler
runs.  `timeout = none` models calling without the optional argument, whose
default is `120.0`. -/
def send_message (st : ChannelState) (text user_id now : String)
    (arrivals : List (ℚ × LoopEvent)) (timeout : Option ℚ) :
    ChannelState × Except AsyncError String :=
  let t := timeout.getD 120
  let reg := send_register st text user_id now
  let st1 := (listen_outbound reg.st ((arrivals.filter fun p => p.1 ≤ t).map fun p => p.2)).1
  let fs := getF st1.futures reg.fid
  send_await st1 reg.thread_id fs (!fs.isDone)

/-- Calling `None.cancel()` would raise `AttributeError`; `HTTPChannel.stop` guards
the call with `if self._task:`. -/
def cancelTaskHandle : Option Nat → Except AsyncError Unit
  | none => Except.error AsyncError.attributeError
  | some _ => Except.ok ()

/-- Method `HTTPChannel.stop`: clear `_running`; if a dispatcher task exists,
cancel it and await its termination, swallowing the `CancelledError` — the
cancelled dispatcher observes `CancelledError` at its await and exits (its
pending events are never processed).  Returns normally. -/
def stop (st : ChannelState) (pendingEvents : List LoopEvent) :
    Except AsyncError ChannelState :=
  let st1 := { st with _running := false }
  if st1._task.isSome then
    match cancelTaskHandle st1._task with
    | Except.error e => Except.error e
    | Except.ok _ =>
        Except.ok (listen_outbound st1 (LoopEvent.cancelled :: pendingEvents)).1
  else Except.ok st1

/-! ### Association-list lemmas -/

theorem lookup_filterOut_self {α : Type} {β : Type} [BEq α] [LawfulBEq α]
    (k : α) (d : List (α × β)) :
    (d.filter fun p => p.1 != k).lookup k = none := by
  induction d with
  | nil => rfl
  | cons a d ih =>
      obtain ⟨a1, a2⟩ := a
      by_cases h : a1 = k
      · rw [List.filter_cons_of_neg (by simp [h])]
        exact ih
      · rw [List.filter_cons_of_pos (by simp [h])]
        have hk : (k == a1) = false := beq_false_of_ne (Ne.symm h)
        simp only [List.lookup_cons, hk]
        exact ih

theorem lookup_filterOut_ne {α : Type} {β : Type} [BEq α] [LawfulBEq α]
    (k x : α) (d : List (α × β)) (h : x ≠ k) :
    (d.filter fun p => p.1 != k).lookup x = d.lookup x := by
  induction d with
  | nil => rfl
  | cons a d ih =>
      obtain ⟨a1, a2⟩ := a
      by_cases ha : a1 = k
      · rw [List.filter_cons_of_neg (by simp [ha])]
        have hx : (x == a1) = false := beq_false_of_ne (by rw [ha]; exact h)
        rw [ih]
        simp only [List.lookup_cons, hx]
      · rw [List.filter_cons_of_pos (by simp [ha])]
        cases hxa : x == a1 with
        | false => simp only [List.lookup_cons, hxa]; exact ih
        | true => simp only [List.lookup_cons, hxa]

theorem lookup_mem {α : Type} {β : Type} [BEq α] [LawfulBEq α]
    {k : α} {v : β} {d : List (α × β)} (h : d.lookup k = some v) : (k, v) ∈ d := by
  induction d with
  | nil => simp [List.lookup] at h
  | cons a d ih =>
      obtain ⟨a1, a2⟩ := a
      by_cases hk : k = a1
      · subst hk
        simp only [List.lookup_cons, beq_self_eq_true] at h
        injection h with h2
        subst h2
        exact List.mem_cons_self _ _
      · have hx : (k == a1) = false := beq_false_of_ne hk
        simp only [List.lookup_cons, hx] at h
        exact List.mem_cons_of_mem _ (ih h)

theorem lookup_dictRemove_self (k : String) (d : List (String × Nat)) :
    (dictRemove k d).lookup k = none :=
  lookup_filterOut_self k d

theorem lookup_dictRemove_ne (k x : String) (d : List (String × Nat)) (h : x ≠ k) :
    (dictRemove k d).lookup x = d.lookup x :=
  lookup_filterOut_ne k x d h

theorem lookup_dictInsert_self (k : String) (v : Nat) (d : List (String × Nat)) :
    (dictInsert k v d).lookup k = some v := by
  simp [dictInsert, List.lookup]

theorem lookup_dictInsert_ne (k x : String) (v : Nat) (d : List (String × Nat)) (h : x ≠ k) :
    (dictInsert k v d).lookup x = d.lookup x := by
  have hx : (x == k) = false := by simp [h]
  rw [dictInsert, List.lookup_cons, hx]
  exact lookup_dictRemove_ne k x d h

theorem getF_setF_self (i : Nat) (s : FState) (fs : List (Nat × FState)) :
    getF (setF i s fs) i = s := by
  simp [getF, setF, List.lookup]

theorem getF_setF_ne (i j : Nat) (s : FState) (fs : List (Nat × FState)) (h : j ≠ i) :
    getF (setF i s fs) j = getF fs j := by
  have hx : (j == i) = false := by simp [h]
  rw [getF, setF, List.lookup_cons, hx]
  exact congrArg (Option.getD · FState.pending) (lookup_filterOut_ne i j fs h)

/-! ### Dispatcher loop-body lemmas -/

theorem body_of_lookup_none (st : ChannelState) (m : OutboundMessage)
    (h : st.pending_responses.lookup m.thread_id = none) :
    listen_outbound_body st m = st := by
  simp [listen_outbound_body, h]

theorem body_pending_of_some (st : ChannelState) (m : OutboundMessage) (fid : Nat)
    (h : st.pending_responses.lookup m.thread_id = some fid) :
    (listen_outbound_body st m).pending_responses
      = dictRemove m.thread_id st.pending_responses := by
  simp only [listen_outbound_body, h]
  split <;> rfl

theorem body_futures_of_done (st : ChannelState) (m : OutboundMessage) (fid : Nat)
    (h : st.pending_responses.lookup m.thread_id = some fid)
    (hd : (getF st.futures fid).isDone = true) :
    (listen_outbound_body st m).futures = st.futures := by
  simp [listen_outbound_body, h, hd]

theorem body_futures_of_not_done (st : ChannelState) (m : OutboundMessage) (fid : Nat)
    (h : st.pending_responses.lookup m.thread_id = some fid)
    (hd : (getF st.futures fid).isDone = false) :
    (listen_outbound_body st m).futures = setF fid (FState.done m.text) st.futures := by
  simp [listen_outbound_body, h, hd]

theorem body_getF_preserved_of_done (st : ChannelState) (m : OutboundMessage) (i : Nat)
    (hd : (getF st.futures i).isDone = true) :
    getF (listen_outbound_body st m).futures i = getF st.futures i := by
  cases h : st.pending_responses.lookup m.thread_id with
  | none => rw [body_of_lookup_none st m h]
  | some fid =>
      cases hfd : (getF st.futures fid).isDone with
      | true => rw [body_futures_of_done st m fid h hfd]
      | false =>
          rw [body_futures_of_not_done st m fid h hfd]
          have hne : i ≠ fid := by
            intro he
            rw [he] at hd
            rw [hd] at hfd
            exact Bool.noConfusion hfd
          exact getF_setF_ne fid i (FState.done m.text) st.futures hne

/-- C5: for every outbound message dequeued by the dispatcher loop: if the
correlation table has an entry for the message's `thread_id`, that entry is
popped and, if the waiter is not already completed, the waiter is completed
with the message's text (if it is already completed, the futures store is
untouched); if the table has no entry for that `thread_id`, the message is
discarded with no state change at all. -/
theorem C5_dispatch_step (st : ChannelState) (m : OutboundMessage) (fid : Nat)
    (hsome : st.pending_responses.lookup m.thread_id = some fid) :
    ((listen_outbound_body st m).pending_responses.lookup m.thread_id = none)
    ∧ ((getF st.futures fid).isDone = false →
        getF (listen_outbound_body st m).futures fid = FState.done m.text)
    ∧ ((getF st.futures fid).isDone = true →
        (listen_outbound_body st m).futures = st.futures)
    ∧ (∀ st' : ChannelState, st'.pending_responses.lookup m.thread_id = none →
        listen_outbound_body st' m = st') := by
  refine ⟨?_, ?_, ?_, ?_⟩
  · rw [body_pending_of_some st m fid hsome]
    exact lookup_dictRemove_self m.thread_id st.pending_responses
  · intro hd
    rw [body_futures_of_not_done st m fid hsome hd]
    exact getF_setF_self fid (FState.done m.text) st.futures
  · intro hd
    exact body_futures_of_done st m fid hsome hd
  · intro st' h
    exact body_of_lookup_none st' m h

/-- C5 witness: a concrete state with one live waiter for `"http-u"`; the
dispatched reply pops the entry and completes the waiter with its text, and
a state without the entry is left unchanged. -/
theorem C5_dispatch_step_witness :
    ((listen_outbound_body
        ⟨[("http-u", 0)], [(0, FState.pending)], 1, 1, true, some 0, []⟩
        ⟨"http-u", "hi"⟩).pending_responses.lookup "http-u" = none)
    ∧ (getF (listen_outbound_body
        ⟨[("http-u", 0)], [(0, FState.pending)], 1, 1, true, some 0, []⟩
        ⟨"http-u", "hi"⟩).futures 0 = FState.done "hi")
    ∧ (listen_outbound_body
        ⟨[], [(0, FState.pending)], 1, 1, true, some 0, []⟩ ⟨"http-u", "hi"⟩
        = ⟨[], [(0, FState.pending)], 1, 1, true, some 0, []⟩) :=
  ⟨(C5_dispatch_step ⟨[("http-u", 0)], [(0, FState.pending)], 1, 1, true, some 0, []⟩
      ⟨"http-u", "hi"⟩ 0 (by decide)).1,
   (C5_dispatch_step ⟨[("http-u", 0)], [(0, FState.pending)], 1, 1, true, some 0, []⟩
      ⟨"http-u", "hi"⟩ 0 (by decide)).2.1 (by decide),
   (C5_dispatch_step ⟨[("http-u", 0)], [(0, FState.pending)], 1, 1, true, some 0, []⟩
      ⟨"http-u", "hi"⟩ 0 (by decide)).2.2.2
      ⟨[], [(0, FState.pending)], 1, 1, true, some 0, []⟩ (by decide)⟩

/-- C4: each future is single-assignment.  A future that is already done is
never touched again by the dispatcher (the `not future.done()` guard), and
when two outbound messages carry the same `thread_id` while one waiter is
live, the first dispatched message pops the table entry, so the second
finds no entry and is discarded with no state change. -/
theorem C4_waiter_single_assignment (st : ChannelState) (m1 m2 : OutboundMessage) (i : Nat)
    (hdone : (getF st.futures i).isDone = true)
    (hsame : m2.thread_id = m1.thread_id)
    (hlive : (st.pending_responses.lookup m1.thread_id).isSome = true) :
    (getF (listen_outbound_body st m1).futures i = getF st.futures i)
    ∧ ((listen_outbound_body st m1).pending_responses.lookup m2.thread_id = none)
    ∧ (listen_outbound_body (listen_outbound_body st m1) m2 = listen_outbound_body st m1) := by
  obtain ⟨fid, hfid⟩ := Option.isSome_iff_exists.mp hlive
  have h2 : (listen_outbound_body st m1).pending_responses.lookup m2.thread_id = none := by
    rw [hsame, body_pending_of_some st m1 fid hfid]
    exact lookup_dictRemove_self m1.thread_id st.pending_responses
  exact ⟨body_getF_preserved_of_done st m1 i hdone, h2,
    body_of_lookup_none (listen_outbound_body st m1) m2 h2⟩

/-- C4 witness: a live waiter for `"http-u"` and an already-done future `1`;
dispatching two same-thread replies leaves future `1` untouched and the
second reply finds no table entry and changes nothing. -/
theorem C4_waiter_single_assignment_witness :
    (getF (listen_outbound_body
        ⟨[("http-u", 0)], [(0, FState.pending), (1, FState.done "x")], 2, 1, true, some 0, []⟩
        ⟨"http-u", "hi"⟩).futures 1 = FState.done "x")
    ∧ ((listen_outbound_body
        ⟨[("http-u", 0)], [(0, FState.pending), (1, FState.done "x")], 2, 1, true, some 0, []⟩
        ⟨"http-u", "hi"⟩).pending_responses.lookup "http-u" = none)
    ∧ (listen_outbound_body (listen_outbound_body
        ⟨[("http-u", 0)], [(0, FState.pending), (1, FState.done "x")], 2, 1, true, some 0, []⟩
        ⟨"http-u", "hi"⟩) ⟨"http-u", "later"⟩
      = listen_outbound_body
        ⟨[("http-u", 0)], [(0, FState.pending), (1, FState.done "x")], 2, 1, true, some 0, []⟩
        ⟨"http-u", "hi"⟩) := by
  have h := C4_waiter_single_assignment
    ⟨[("http-u", 0)], [(0, FState.pending), (1, FState.done "x")], 2, 1, true, some 0, []⟩
    ⟨"http-u", "hi"⟩ ⟨"http-u", "later"⟩ 1 (by decide) (by decide) (by decide)
  exact ⟨by rw [h.1]; decide, h.2.1, h.2.2⟩

/-- C1 counterexample: the claim says a timing-out `send_message` removes the
table entry for its `thread_id` only if the entry still points at its own
waiter, leaving a newer concurrent caller's entry in place.  In the code the
timeout handler runs `pending_responses.pop(thread_id, None)` — an
unconditional pop.  Concretely: call A registers for user `"u"` (waiter id
0), a second call B for the same user overwrites the entry with waiter id 1;
when A's timeout fires, the entry pointing at B's waiter is removed too,
leaving no entry for `"http-u"`. -/
theorem C1_counterexample :
    ((send_register (send_register initChannel "a" "u" "t0").st "b" "u" "t1").st.pending_responses.lookup
        "http-u"
      = some (send_register (send_register initChannel "a" "u" "t0").st "b" "u" "t1").fid)
    ∧ ((send_register (send_register initChannel "a" "u" "t0").st "b" "u" "t1").fid
        ≠ (send_register initChannel "a" "u" "t0").fid)
    ∧ ((send_await (send_register (send_register initChannel "a" "u" "t0").st "b" "u" "t1").st
          "http-u" FState.pending true).1.pending_responses.lookup "http-u" = none) := by
  refine ⟨by decide, by decide, by decide⟩

/-- C1 (amended): on timeout, `send_message` removes the correlation-table
entry for its `thread_id` unconditionally — if a newer concurrent
`send_message` for the same `thread_id` has installed its own waiter under
that key, the newer entry is removed as well.  Hence after a `send_message`
returns by the timeout path no entry for its `thread_id` remains at all
(until some later call installs one); after a return by the success path the
dispatcher had already removed the entry when it completed the waiter. -/
theorem C1_amended_unconditional_cleanup (st st' : ChannelState) (tid : String)
    (fs : FState) (m : OutboundMessage) (fid : Nat)
    (hsome : st'.pending_responses.lookup m.thread_id = some fid) :
    ((send_await st tid fs true).1.pending_responses.lookup tid = none)
    ∧ ((listen_outbound_body st' m).pending_responses.lookup m.thread_id = none) := by
  constructor
  · have hw : wait_for fs true = Except.error AsyncError.timeoutError := by
      cases fs <;> rfl
    rw [send_await, hw]
    exact lookup_dictRemove_self tid st.pending_responses
  · rw [body_pending_of_some st' m fid hsome]
    exact lookup_dictRemove_self m.thread_id st'.pending_responses

/-- C1 (amended) witness: the timeout cleanup of the two-caller scenario of
the counterexample leaves no `"http-u"` entry, and a dispatched reply to a
concrete one-waiter state also leaves no entry behind. -/
theorem C1_amended_unconditional_cleanup_witness :
    ((send_await (send_register (send_register initChannel "a" "u" "t0").st "b" "u" "t1").st
        "http-u" FState.pending true).1.pending_responses.lookup "http-u" = none)
    ∧ ((listen_outbound_body
        ⟨[("http-u", 0)], [(0, FState.pending)], 1, 1, true, some 0, []⟩
        ⟨"http-u", "hi"⟩).pending_responses.lookup "http-u" = none) :=
  C1_amended_unconditional_cleanup
    (send_register (send_register initChannel "a" "u" "t0").st "b" "u" "t1").st
    ⟨[("http-u", 0)], [(0, FState.pending)], 1, 1, true, some 0, []⟩
    "http-u" FState.pending ⟨"http-u", "hi"⟩ 0 (by decide)

theorem send_await_isOk (st : ChannelState) (tid : String) (fs : FState) (b : Bool) :
    ∃ v, (send_await st tid fs b).2 = Except.ok v := by
  cases fs <;> cases b <;> simp [send_await, wait_for]

/-- C2: a `send_message` call whose wait ends by the deadline returns the one
fixed timeout notice as a normal result; the `TimeoutError` raised by
`asyncio.wait_for` is caught, never re-raised, and no call ever propagates
an exception (every path returns `Except.ok`). -/
theorem C2_timeout_notice_not_exception (st st0 : ChannelState) (tid : String)
    (fs : FState) (b : Bool) (text uid now : String)
    (arrivals : List (ℚ × LoopEvent)) (tmo : Option ℚ) :
    ((send_await st tid fs true).2 = Except.ok timeout_notice)
    ∧ ((send_await st tid fs b).2 ≠ Except.error AsyncError.timeoutError)
    ∧ (∃ v, (send_message st0 text uid now arrivals tmo).2 = Except.ok v) := by
  refine ⟨?_, ?_, ?_⟩
  · have hw : wait_for fs true = Except.error AsyncError.timeoutError := by
      cases fs <;> rfl
    rw [send_await, hw]
  · obtain ⟨v, hv⟩ := send_await_isOk st tid fs b
    rw [hv]
    intro h
    exact Except.noConfusion h
  · rw [send_message]
    exact send_await_isOk _ _ _ _

/-- C8: `stop()` clears the running flag, cancels the dispatcher task and
awaits its termination, and returns normally; the correlation table and
every waiter are untouched, so a `send_message` pending at shutdown still
resolves via its own timeout path to the fixed notice rather than being
cancelled. -/
theorem C8_stop_frame (st : ChannelState) (evs : List LoopEvent) (tid : String) :
    ∃ st' : ChannelState, stop st evs = Except.ok st'
      ∧ st'.pending_responses = st.pending_responses
      ∧ st'.futures = st.futures
      ∧ st'._running = false
      ∧ (send_await st' tid FState.pending true).2 = Except.ok timeout_notice := by
  cases ht : st._task with
  | none =>
      refine ⟨{ st with _running := false }, ?_, rfl, rfl, rfl, rfl⟩
      simp [stop, ht]
  | some t =>
      refine ⟨{ st with _running := false }, ?_, rfl, rfl, rfl, rfl⟩
      simp [stop, ht, cancelTaskHandle, listen_outbound]

/-- C10: calling `stop()` on an adapter whose `start()` was never invoked
(`self._task` is still `None` from `__init__`) returns normally: the
cancel/await is guarded by `if self._task:`, so only the running flag is
cleared — while an unguarded `None.cancel()` would raise `AttributeError`. -/
theorem C10_stop_without_start (evs : List LoopEvent) :
    (stop initChannel evs = Except.ok { initChannel with _running := false })
    ∧ (initChannel._task = none)
    ∧ (cancelTaskHandle none = Except.error AsyncError.attributeError) :=
  ⟨rfl, rfl, rfl⟩

/-- C6: the dispatcher loop is crash-resistant.  While running: an exception
raised during one iteration (other than `CancelledError`) is logged and the
loop continues with unchanged state, so a single bad message never
terminates the dispatcher and never affects pending waiters; a
`CancelledError` makes the loop exit cleanly; a dequeued message is
dispatched and the loop continues; a message with no live waiter changes
nothing (and in particular raises nothing). -/
theorem C6_dispatcher_crash_resistant (st : ChannelState) (evs : List LoopEvent)
    (m : OutboundMessage) (hrun : st._running = true) :
    (listen_outbound st (LoopEvent.fault :: evs) = listen_outbound st evs)
    ∧ (listen_outbound st (LoopEvent.cancelled :: evs) = (st, LoopExit.cancelledBreak))
    ∧ (listen_outbound st (LoopEvent.recv m :: evs)
        = listen_outbound (listen_outbound_body st m) evs)
    ∧ (st.pending_responses.lookup m.thread_id = none → listen_outbound_body st m = st) := by
  refine ⟨?_, ?_, ?_, fun h => body_of_lookup_none st m h⟩ <;>
    simp [listen_outbound, hrun]

/-- C6 witness: a concrete running dispatcher survives a faulty iteration
unchanged, exits cleanly on cancellation, and discards an orphaned message
without any state change. -/
theorem C6_dispatcher_crash_resistant_witness :
    (listen_outbound ⟨[], [], 0, 0, true, some 0, []⟩ [LoopEvent.fault]
      = listen_outbound ⟨[], [], 0, 0, true, some 0, []⟩ [])
    ∧ (listen_outbound ⟨[], [], 0, 0, true, some 0, []⟩ [LoopEvent.cancelled]
      = (⟨[], [], 0, 0, true, some 0, []⟩, LoopExit.cancelledBreak))
    ∧ (listen_outbound ⟨[], [], 0, 0, true, some 0, []⟩ [LoopEvent.recv ⟨"http-u", "hi"⟩]
      = listen_outbound (listen_outbound_body ⟨[], [], 0, 0, true, some 0, []⟩ ⟨"http-u", "hi"⟩) [])
    ∧ (listen_outbound_body ⟨[], [], 0, 0, true, some 0, []⟩ ⟨"http-u", "hi"⟩
      = ⟨[], [], 0, 0, true, some 0, []⟩) := by
  have h := C6_dispatcher_crash_resistant ⟨[], [], 0, 0, true, some 0, []⟩ []
    ⟨"http-u", "hi"⟩ rfl
  exact ⟨h.1, h.2.1, h.2.2.1, h.2.2.2 (by decide)⟩

/-- Number of bindings a dict holds for key `k`. -/
def keyCount (k : String) (d : List (String × Nat)) : Nat :=
  (d.filter fun p => p.1 == k).length

theorem filter_key_filterOut (k : String) (d : List (String × Nat)) :
    ((d.filter fun p => p.1 != k).filter fun p => p.1 == k) = [] := by
  induction d with
  | nil => rfl
  | cons a d ih =>
      by_cases h : a.1 = k
      · rw [List.filter_cons_of_neg (by simp [h])]
        exact ih
      · rw [List.filter_cons_of_pos (by simp [h]), List.filter_cons_of_neg (by simp [h])]
        exact ih

theorem keyCount_dictInsert (k : String) (v : Nat) (d : List (String × Nat)) :
    keyCount k (dictInsert k v d) = 1 := by
  rw [keyCount, dictInsert, dictRemove, List.filter_cons_of_pos (by simp),
    filter_key_filterOut]
  rfl

/-- C9: a second concurrent `send_message` for the same `callerId` (hence
the same `thread_id`) is not rejected: its fresh waiter silently overwrites
the older entry, and afterwards the table holds exactly one binding for that
`thread_id`, pointing at the newer waiter. -/
theorem C9_double_registration (st : ChannelState) (t1 u now1 t2 now2 : String) :
    ((send_register (send_register st t1 u now1).st t2 u now2).thread_id
      = (send_register st t1 u now1).thread_id)
    ∧ ((send_register (send_register st t1 u now1).st t2 u now2).fid
        ≠ (send_register st t1 u now1).fid)
    ∧ ((send_register (send_register st t1 u now1).st t2 u now2).st.pending_responses.lookup
          (send_register st t1 u now1).thread_id
      = some (send_register (send_register st t1 u now1).st t2 u now2).fid)
    ∧ (keyCount (send_register st t1 u now1).thread_id
        (send_register (send_register st t1 u now1).st t2 u now2).st.pending_responses = 1) := by
  refine ⟨rfl, by simp [send_register], ?_, ?_⟩
  · exact lookup_dictInsert_self _ _ _
  · exact keyCount_dictInsert _ _ _

/-- C7: every `send_message(text, callerId)` call derives the conversation
identifier as the literal string `"http-"` followed by the caller id (with
`"http-"` being the channel name and a dash); the `timeout` parameter
defaults to 120 seconds (`timeout = none` models omitting the optional
argument); and each call publishes an inbound message carrying a freshly
minted id, distinct from that of every other call (the fresh-name supply
strictly increases and is drawn exactly once per call). -/
theorem C7_identifiers_and_default (st : ChannelState)
    (text uid now text2 uid2 now2 : String) :
    ((send_register st text uid now).thread_id = "http-" ++ uid)
    ∧ ("http-" ++ uid = channelName ++ "-" ++ uid)
    ∧ ((send_register st text uid now).msg.id = st.next_msg_id)
    ∧ ((send_register st text uid now).st.next_msg_id = st.next_msg_id + 1)
    ∧ ((send_register (send_register st text uid now).st text2 uid2 now2).msg.id
        ≠ (send_register st text uid now).msg.id)
    ∧ (∀ (st0 : ChannelState) (text0 uid0 now0 : String)
        (arrivals : List (ℚ × LoopEvent)),
        send_message st0 text0 uid0 now0 arrivals none
          = send_message st0 text0 uid0 now0 arrivals (some 120)) := by
  refine ⟨rfl, ?_, rfl, rfl, by simp [send_register], fun _ _ _ _ _ => rfl⟩
  have : channelName ++ "-" = "http-" := rfl
  rw [← this, String.append_assoc]

/-! ### Reachable-state invariant -/

/-- Every waiter id stored in the correlation table was drawn from the
fresh-future supply, i.e. lies below `next_future`.  Holds initially and is
preserved by every operation, so it characterises the reachable states; it
rules out a table entry aliasing a future the current call is about to
create. -/
def WF (st : ChannelState) : Prop :=
  ∀ p ∈ st.pending_responses, p.2 < st.next_future

theorem WF_initChannel : WF initChannel := by
  intro p hp
  simp [initChannel] at hp

theorem WF_send_register (st : ChannelState) (text uid now : String) (h : WF st) :
    WF (send_register st text uid now).st := by
  intro p hp
  have hmem : p = ("http-" ++ uid, st.next_future)
      ∨ p ∈ dictRemove ("http-" ++ uid) st.pending_responses := by
    simpa [send_register, dictInsert] using hp
  rcases hmem with rfl | hp'
  · exact Nat.lt_succ_self _
  · exact Nat.lt_succ_of_lt (h p (List.mem_of_mem_filter hp'))

theorem WF_listen_outbound_body (st : ChannelState) (m : OutboundMessage) (h : WF st) :
    WF (listen_outbound_body st m) := by
  intro p hp
  cases hl : st.pending_responses.lookup m.thread_id with
  | none =>
      rw [body_of_lookup_none st m hl] at hp ⊢
      exact h p hp
  | some fid =>
      have hpend := body_pending_of_some st m fid hl
      have hnf : (listen_outbound_body st m).next_future = st.next_future := by
        simp only [listen_outbound_body, hl]
        split <;> rfl
      rw [hpend] at hp
      rw [hnf]
      exact h p (List.mem_of_mem_filter hp)

theorem WF_send_await (st : ChannelState) (tid : String) (fs : FState) (b : Bool)
    (h : WF st) : WF (send_await st tid fs b).1 := by
  rw [send_await]
  cases hw : wait_for fs b with
  | ok v => exact h
  | error e =>
      cases e with
      | timeoutError =>
          intro p hp
          exact h p (List.mem_of_mem_filter hp)
      | cancelledError => exact h
      | attributeError => exact h

/-! ### Registration and loop lemmas -/

theorem send_register_getF (st : ChannelState) (text uid now : String) :
    getF (send_register st text uid now).st.futures (send_register st text uid now).fid
      = FState.pending :=
  getF_setF_self _ _ _

theorem listen_outbound_nil_fst (st : ChannelState) : (listen_outbound st []).1 = st := by
  rw [listen_outbound]
  split <;> rfl

theorem listen_outbound_recv (st : ChannelState) (m : OutboundMessage)
    (evs : List LoopEvent) (h : st._running = true) :
    listen_outbound st (LoopEvent.recv m :: evs)
      = listen_outbound (listen_outbound_body st m) evs := by
  simp [listen_outbound, h]

/-- C3: a `send_message` call whose waiter is completed before the deadline
receives exactly the completing outbound message's text — and the waiter can
only have been completed by a message whose `thread_id` is exactly equal
(plain string equality: case-sensitive, no normalization) to the
`thread_id` minted for the call.  The last conjunct runs a whole matched
call: a reply with the minted `thread_id` arriving within the deadline makes
`send_message` return exactly that reply's text. -/
theorem C3_reply_exact_match (st : ChannelState) (text uid now : String)
    (m : OutboundMessage) (v : String) (q : ℚ) (tmo : Option ℚ)
    (hWF : WF st)
    (hdone : getF (listen_outbound_body (send_register st text uid now).st m).futures
        (send_register st text uid now).fid = FState.done v) :
    (m.thread_id = "http-" ++ uid ∧ v = m.text)
    ∧ (∀ (st1 : ChannelState) (tid : String),
        send_await st1 tid (FState.done v) false = (st1, Except.ok v))
    ∧ (st._running = true → q ≤ tmo.getD 120 → m.thread_id = "http-" ++ uid →
        (send_message st text uid now [(q, LoopEvent.recv m)] tmo).2
          = Except.ok m.text) := by
  refine ⟨?_, fun st1 tid => rfl, ?_⟩
  · by_cases hm : m.thread_id = "http-" ++ uid
    · refine ⟨hm, ?_⟩
      have hl : (send_register st text uid now).st.pending_responses.lookup m.thread_id
          = some (send_register st text uid now).fid := by
        rw [hm]
        exact lookup_dictInsert_self _ _ _
      have hp : (getF (send_register st text uid now).st.futures
          (send_register st text uid now).fid).isDone = false := by
        rw [send_register_getF]
        rfl
      rw [body_futures_of_not_done _ m _ hl hp, getF_setF_self] at hdone
      injection hdone with h2
      exact h2.symm
    · exfalso
      have hl : (send_register st text uid now).st.pending_responses.lookup m.thread_id
          = st.pending_responses.lookup m.thread_id :=
        lookup_dictInsert_ne _ _ _ _ hm
      cases h2 : st.pending_responses.lookup m.thread_id with
      | none =>
          rw [body_of_lookup_none _ m (hl.trans h2), send_register_getF] at hdone
          exact FState.noConfusion hdone
      | some fid' =>
          have hlt : fid' < st.next_future := hWF _ (lookup_mem h2)
          have hne : (send_register st text uid now).fid ≠ fid' := by
            intro he
            rw [← he] at hlt
            exact lt_irrefl st.next_future hlt
          cases hfd : (getF (send_register st text uid now).st.futures fid').isDone with
          | true =>
              rw [body_futures_of_done _ m fid' (hl.trans h2) hfd,
                send_register_getF] at hdone
              exact FState.noConfusion hdone
          | false =>
              rw [body_futures_of_not_done _ m fid' (hl.trans h2) hfd,
                getF_setF_ne fid' _ _ _ hne, send_register_getF] at hdone
              exact FState.noConfusion hdone
  · intro hrun hq hm
    have hdec : decide (q ≤ tmo.getD 120) = true := decide_eq_true hq
    have hfilt : ((([((q : ℚ), LoopEvent.recv m)].filter
          fun p => p.1 ≤ tmo.getD 120).map fun p => p.2)) = [LoopEvent.recv m] := by
      simp [List.filter_cons, hdec]
    have hrun' : (send_register st text uid now).st._running = true := hrun
    have hl : (send_register st text uid now).st.pending_responses.lookup m.thread_id
        = some (send_register st text uid now).fid := by
      rw [hm]
      exact lookup_dictInsert_self _ _ _
    have hp : (getF (send_register st text uid now).st.futures
        (send_register st text uid now).fid).isDone = false := by
      rw [send_register_getF]
      rfl
    have hbody : getF (listen_outbound_body (send_register st text uid now).st m).futures
        (send_register st text uid now).fid = FState.done m.text := by
      rw [body_futures_of_not_done _ m _ hl hp]
      exact getF_setF_self _ _ _
    simp only [send_message]
    rw [hfilt, listen_outbound_recv _ m [] hrun', listen_outbound_nil_fst, hbody]
    rfl

/-- C3 witness: from a started adapter, `send_message("t", "u")` matched by
the reply `("http-u", "hi")` arriving at time 0 (within the default
deadline) returns exactly `"hi"`; the completing message's `thread_id` is
exactly the minted `"http-" ++ "u"`. -/
theorem C3_reply_exact_match_witness :
    ((OutboundMessage.mk "http-u" "hi").thread_id = "http-" ++ "u"
      ∧ "hi" = (OutboundMessage.mk "http-u" "hi").text)
    ∧ (send_message ⟨[], [], 0, 0, true, some 0, []⟩ "t" "u" "now"
        [((0 : ℚ), LoopEvent.recv ⟨"http-u", "hi"⟩)] none).2
      = Except.ok (OutboundMessage.mk "http-u" "hi").text := by
  have h := C3_reply_exact_match ⟨[], [], 0, 0, true, some 0, []⟩ "t" "u" "now"
    ⟨"http-u", "hi"⟩ "hi" 0 none
    (by intro p hp; exact absurd hp (List.not_mem_nil p)) (by decide)
  exact ⟨h.1, h.2.2 rfl (by decide) (by decide)⟩

end Nanobot
